import Mathlib

/-!
Shallow embedding of the real-time messaging subsystem of the Swappio backend
(`src/config/socket.ts`, `src/controllers/messageController.ts`,
`src/models/Message.ts`).

Modelling conventions:
* A Mongo `Message` document is a `Message` record; ObjectIds are `Nat`s
  assigned in creation order (Mongo ObjectIds are monotonically increasing),
  so `Message.create` assigns `maxId store + 1`.
* The message collection is a `List Message`; `updateMany` / `save` are maps
  over the list; `findById` is `List.find?` on the id.
* `Date` values are `Nat` instants supplied by an oracle (`SendWorld`).
* Each fallible external call (`Message.create`, `findById().populate()`,
  `io.fetchSockets`, `message.save()`) gets a Bool in `SendWorld` telling
  whether it throws; the try/catch structure of the handlers is mirrored on
  those flags.
* `populate('senderId','name photo')` is modelled as a lookup in a user
  directory `String → Option UserInfo`; the enriched payload keeps the raw
  message plus the two optional user records.
* Socket emissions are collected in a `List Event`; `io.to(room).emit(...)`
  and `socket.emit(...)` become dedicated `Event` constructors.
* Mongo leaves the order of equal sort keys unspecified; following the
  spec's determinism note (total order by `createdAt`, ties broken by
  identifier) we determinise sorting by the key `(createdAt, id)`
  descending.  `$group` output order is also unspecified and the
  conversation pipeline has no `$sort` after `$group`, so the model keeps
  that freedom: `pickFirstPerParty` enumerates the group representatives
  (the `$first` document of each group over the sorted stream — that much
  is determined) and a `groupOut` oracle, constrained by theorems only to
  be a permutation, supplies the database's choice of output order.
-/

/-- Minimal user display fields selected by `populate('senderId', 'name photo')`. -/
structure UserInfo where
  name : String
  photo : String
deriving DecidableEq, Repr

/-- A Mongo `Message` document (`src/models/Message.ts`): senderId/receiverId
required refs, text, optional listingId, `isRead` default false, `isDelivered`
default false, optional `deliveredAt`, timestamp `createdAt`. -/
structure Message where
  id : Nat
  senderId : String
  receiverId : String
  text : String
  listingId : Option String
  isRead : Bool
  isDelivered : Bool
  deliveredAt : Option Nat
  createdAt : Nat
deriving DecidableEq, Repr

/-- A message joined with the display fields of its sender and receiver
(the result of `findById(...).populate('senderId').populate('receiverId')`). -/
structure Enriched where
  msg : Message
  sender : Option UserInfo
  receiver : Option UserInfo
deriving DecidableEq, Repr

/-- Socket emissions of the subsystem.  `receiveMessage`, `messageDelivered`
and `messagesRead` are `io.to(room).emit(...)` broadcasts (first field the
room); `messageSent` and `messageError` are `socket.emit(...)` to the sending
connection only. -/
inductive Event where
  | receiveMessage (room : String) (payload : Option Enriched)
  | messageDelivered (room : String) (messageId : Nat) (deliveredAt : Option Nat)
  | messageSent (payload : Option Enriched)
  | messageError (text : String)
  | messagesRead (room : String) (readBy : String)
  | userTyping (room : String) (userId : Option String)
  | userStopTyping (room : String) (userId : Option String)
deriving DecidableEq, Repr

/-- Largest id present in the store (0 for the empty store); `Message.create`
assigns `maxId store + 1`, so fresh ids never collide with existing ones. -/
def maxId : List Message → Nat
  | [] => 0
  | m :: rest => max m.id (maxId rest)

/-- The document inserted by `Message.create({senderId, receiverId, text,
listingId})`: schema defaults `isRead := false`, `isDelivered := false`, no
`deliveredAt`, server-assigned id and `createdAt`. -/
def newMessage (store : List Message) (uid rid text : String) (lid : Option String)
    (now : Nat) : Message :=
  { id := maxId store + 1, senderId := uid, receiverId := rid, text := text,
    listingId := lid, isRead := false, isDelivered := false,
    deliveredAt := none, createdAt := now }

/-- `Message.findById(id).populate('senderId','name photo').populate('receiverId','name photo')`. -/
def findPopulate (users : String → Option UserInfo) (store : List Message) (id : Nat) :
    Option Enriched :=
  (store.find? (fun m => m.id == id)).map
    (fun m => { msg := m, sender := users m.senderId, receiver := users m.receiverId })

/-- Persisting an updated document (`message.save()`): replace the document
with the given id. -/
def updateById (store : List Message) (id : Nat) (m2 : Message) : List Message :=
  store.map (fun x => if x.id == id then m2 else x)

/-- `Message.updateMany({senderId, receiverId, isRead: false}, {isRead: true})`:
the bulk update shared by the socket `mark_read` handler and `getMessages`. -/
def markReadStore (store : List Message) (senderId selfId : String) : List Message :=
  store.map (fun m =>
    if m.senderId == senderId && m.receiverId == selfId && !m.isRead then
      { m with isRead := true }
    else m)

/-- Oracle for one `send_message` dispatch: whether each external call
succeeds (`createOk` for `Message.create`, `findOk1` for the first
`findById().populate()`, `fetchOk` for `io.in(receiverId).fetchSockets()`,
`saveOk` for `message.save()`, `findOk2` for the re-populate after delivery),
the room occupancy seen by `fetchSockets`, the user directory, and the two
`new Date()` instants (`now` at creation, `deliveryTime` for `deliveredAt`). -/
structure SendWorld where
  createOk : Bool
  findOk1 : Bool
  fetchOk : Bool
  saveOk : Bool
  findOk2 : Bool
  occupancy : String → Nat
  users : String → Option UserInfo
  now : Nat
  deliveryTime : Nat

/-- The `send_message` handler (`src/config/socket.ts` lines 55-111).
Returns the message store after the handler and the list of emitted events,
mirroring the control flow: unauthenticated connections return silently;
`Message.create` or first-populate failure hits the outer catch
(`message_error`); failures of the presence check, the delivery save or the
re-populate hit the inner catch and fall back to emitting the initially
populated record; otherwise presence decides the delivered/undelivered
branch. -/
def handleSend (w : SendWorld) (store : List Message) (userId? : Option String)
    (receiverId text : String) (listingId : Option String) :
    List Message × List Event :=
  match userId? with
  | none => (store, [])
  | some uid =>
    if w.createOk = false then
      (store, [Event.messageError "Failed to send message"])
    else
      let m := newMessage store uid receiverId text listingId w.now
      let store1 := store ++ [m]
      if w.findOk1 = false then
        (store1, [Event.messageError "Failed to send message"])
      else
        let populated := findPopulate w.users store1 m.id
        if w.fetchOk = false then
          (store1, [Event.receiveMessage receiverId populated, Event.messageSent populated])
        else if 0 < w.occupancy receiverId then
          if w.saveOk = false then
            (store1, [Event.receiveMessage receiverId populated, Event.messageSent populated])
          else
            let m2 := { m with isDelivered := true, deliveredAt := some w.deliveryTime }
            let store2 := updateById store1 m.id m2
            if w.findOk2 = false then
              (store2, [Event.receiveMessage receiverId populated, Event.messageSent populated])
            else
              let deliveredPopulated := findPopulate w.users store2 m.id
              (store2,
                [Event.receiveMessage receiverId deliveredPopulated,
                 Event.messageDelivered uid m.id (some w.deliveryTime),
                 Event.messageSent deliveredPopulated])
        else
          (store1, [Event.receiveMessage receiverId populated, Event.messageSent populated])

/-- The `mark_read` handler (`src/config/socket.ts` lines 128-147):
unauthenticated connections return silently; otherwise the bulk update runs
and `messages_read` is broadcast to the original sender's room; a thrown
update (`updateOk = false`) is caught and only logged. -/
def handleMarkRead (updateOk : Bool) (store : List Message) (userId? : Option String)
    (senderId : String) : List Message × List Event :=
  match userId? with
  | none => (store, [])
  | some uid =>
    if updateOk then
      (markReadStore store senderId uid, [Event.messagesRead senderId uid])
    else
      (store, [])

/-- State bound to a successfully established connection: the identity stored
in `socket.userId` and the rooms the socket joined. -/
structure ConnState where
  userId : Option String
  rooms : List String
deriving DecidableEq, Repr

/-- The socket authentication middleware (`io.use`, `src/config/socket.ts`
lines 21-43): no token refuses with "Authentication error: No token
provided"; a token whose `jwt.verify` throws refuses with "Authentication
error: Invalid token"; otherwise the decoded id is returned.  `verify`
abstracts `jwt.verify(token, secret)`, returning the decoded id or throwing
(`Except.error`). -/
def authMiddleware (verify : String → Except String String) (token? : Option String) :
    Except String String :=
  match token? with
  | none => Except.error "Authentication error: No token provided"
  | some t =>
    match verify t with
    | Except.ok id => Except.ok id
    | Except.error _ => Except.error "Authentication error: Invalid token"

/-- Connection establishment: the middleware runs, and on success the
connection handler binds the id (`socket.userId = decoded.id`) and joins the
identity's own room (`socket.join(socket.userId)`).  A refused connection
yields no `ConnState` at all: no identity bound, no room joined. -/
def establishConnection (verify : String → Except String String)
    (token? : Option String) : Except String ConnState :=
  match authMiddleware verify token? with
  | Except.error e => Except.error e
  | Except.ok id => Except.ok { userId := some id, rooms := [id] }

/-- Sort key order used to determinise Mongo's `sort({createdAt: -1})`:
`msgBefore a b` says `a` may precede `b` in the descending order — `a` is
strictly newer, or same instant with `a.id ≥ b.id` (ObjectIds grow over
time; the spec breaks `createdAt` ties by identifier). -/
def msgBefore (a b : Message) : Prop :=
  b.createdAt < a.createdAt ∨ (b.createdAt = a.createdAt ∧ b.id ≤ a.id)

instance : DecidableRel msgBefore := fun a b => by
  unfold msgBefore
  exact inferInstance

instance : IsTotal Message msgBefore where
  total a b := by
    rcases Nat.lt_trichotomy a.createdAt b.createdAt with h | h | h
    · exact Or.inr (Or.inl h)
    · rcases Nat.le_total b.id a.id with h2 | h2
      · exact Or.inl (Or.inr ⟨h.symm, h2⟩)
      · exact Or.inr (Or.inr ⟨h, h2⟩)
    · exact Or.inl (Or.inl h)

instance : IsTrans Message msgBefore where
  trans a b c hab hbc := by
    rcases hab with hab | ⟨hab1, hab2⟩
    · rcases hbc with hbc | ⟨hbc1, hbc2⟩
      · exact Or.inl (Nat.lt_trans hbc hab)
      · exact Or.inl (hbc1 ▸ hab)
    · rcases hbc with hbc | ⟨hbc1, hbc2⟩
      · exact Or.inl (hab1 ▸ hbc)
      · exact Or.inr ⟨hbc1.trans hab1, hbc2.trans hab2⟩

/-- Mongo's `sort({createdAt: -1})`, determinised by the id tie-break. -/
def sortDesc (l : List Message) : List Message :=
  List.insertionSort msgBefore l

/-- `{$or: [{senderId: self, receiverId: other}, {senderId: other, receiverId: self}]}`. -/
def conversationBetween (selfId otherId : String) (m : Message) : Bool :=
  (m.senderId == selfId && m.receiverId == otherId) ||
  (m.senderId == otherId && m.receiverId == selfId)

/-- Pagination block of the `getMessages` response. -/
structure Pagination where
  page : Nat
  limit : Nat
  total : Nat
  pages : Nat
deriving DecidableEq, Repr

/-- `getMessages` (`src/controllers/messageController.ts` lines 134-183):
filter the two-way conversation, sort newest first, `skip((page-1)*limit)`,
`limit(limit)`, reverse the fetched page to oldest-first; as a side effect
bulk-mark every message from the counterpart to self as read (the update is
not page-bounded); `total` counts the whole conversation and `pages` is
`ceil(total/limit)`.  Returns (page of messages, store after the update,
pagination).  The `populate` calls only decorate the payload with display
fields and are dropped here. -/
def getMessages (store : List Message) (selfId otherId : String) (page limit : Nat) :
    List Message × List Message × Pagination :=
  let conv := store.filter (conversationBetween selfId otherId)
  let sorted := sortDesc conv
  let orderedMessages := ((sorted.drop ((page - 1) * limit)).take limit).reverse
  let newStore := markReadStore store otherId selfId
  let total := conv.length
  (orderedMessages, newStore, { page := page, limit := limit, total := total,
                                pages := (total + limit - 1) / limit })

/-- `getUnreadCount` (`src/controllers/messageController.ts` lines 188-198):
`countDocuments({receiverId: self, isRead: false})`. -/
def getUnreadCount (store : List Message) (selfId : String) : Nat :=
  (store.filter (fun m => m.receiverId == selfId && !m.isRead)).length

/-- `{$or: [{senderId: self}, {receiverId: self}]}` — the `$match` stage of
the conversation aggregation. -/
def involves (selfId : String) (m : Message) : Bool :=
  m.senderId == selfId || m.receiverId == selfId

/-- The `$group` key: `$cond: [{$eq: ['$senderId', self]}, '$receiverId', '$senderId']`. -/
def otherParty (selfId : String) (m : Message) : String :=
  if m.senderId == selfId then m.receiverId else m.senderId

/-- The `$group`/`$first` stage over the descending-sorted stream: keep the
first (i.e. newest) message of each counterpart.  This enumerates the group
representatives in a canonical (first-encounter) order; the unspecified
`$group` output order is applied on top by the `groupOut` oracle in
`getConversations`.  The first argument is recursion fuel (callers pass the
list length, which the lemmas show is always enough), keeping the
definition structural. -/
def pickFirstPerParty (selfId : String) : Nat → List Message → List Message
  | _, [] => []
  | 0, _ :: _ => []
  | fuel + 1, m :: rest =>
      m :: pickFirstPerParty selfId fuel
        (rest.filter (fun x => otherParty selfId x != otherParty selfId m))

/-- One row of the `getConversations` response: the last message's id, text
and `createdAt`, with the looked-up sender and receiver user documents
(passwords projected away; `senderId`/`receiverId` are the `_id`s those
documents carry). -/
structure ConvEntry where
  id : Nat
  senderId : String
  receiverId : String
  sender : UserInfo
  receiver : UserInfo
  text : String
  createdAt : Nat
deriving DecidableEq, Repr

/-- The `$lookup`+`$unwind` stages on the users collection followed by the
final projection: a row whose sender or receiver has no user document is
dropped (`$unwind` without `preserveNullAndEmptyArrays`). -/
def toConvEntry (users : String → Option UserInfo) (m : Message) : Option ConvEntry :=
  match users m.senderId, users m.receiverId with
  | some s, some r =>
      some { id := m.id, senderId := m.senderId, receiverId := m.receiverId,
             sender := s, receiver := r, text := m.text, createdAt := m.createdAt }
  | _, _ => none

/-- Total variant of `toConvEntry` (defaulting missing users), used to state
what the pipeline produces when every participant has a user document. -/
def toConvEntryD (users : String → Option UserInfo) (m : Message) : ConvEntry :=
  { id := m.id, senderId := m.senderId, receiverId := m.receiverId,
    sender := (users m.senderId).getD { name := "", photo := "" },
    receiver := (users m.receiverId).getD { name := "", photo := "" },
    text := m.text, createdAt := m.createdAt }

/-- `getConversations` (`src/controllers/messageController.ts` lines 47-129):
`$match` messages involving self, `$sort {createdAt: -1}`, `$group` by the
other party keeping the first (newest) document, `$lookup`/`$unwind` the
sender and receiver user documents, project.  MongoDB emits the groups in
an order it does not specify and the pipeline has no `$sort` after
`$group`; `groupOut` is the database's choice of that order (theorems
constrain it only to permute the groups). -/
def getConversations (users : String → Option UserInfo)
    (groupOut : List Message → List Message) (store : List Message)
    (selfId : String) : List ConvEntry :=
  let relevant := store.filter (involves selfId)
  let sorted := sortDesc relevant
  let lasts := groupOut (pickFirstPerParty selfId sorted.length sorted)
  lasts.filterMap (toConvEntry users)

/-- HTTP response of the `sendMessage` controller. -/
inductive HttpResp where
  | ok (message : Option Enriched)
  | error (text : String)
deriving DecidableEq, Repr

/-- The HTTP `sendMessage` controller (`POST /api/messages`,
`src/controllers/messageController.ts` lines 11-42): reject unauthenticated
requests, `Message.create` with schema defaults, re-load with populate,
respond.  The controller never touches the socket server, so the emitted
event list is literally empty; a thrown `create`/`findById` propagates
through `asyncHandler` as a generic request failure. -/
def sendMessageHttp (w : SendWorld) (store : List Message) (user? : Option String)
    (receiverId text : String) (listingId : Option String) :
    List Message × List Event × HttpResp :=
  match user? with
  | none => (store, [], HttpResp.error "User not authenticated")
  | some uid =>
    if w.createOk = false then
      (store, [], HttpResp.error "request failed")
    else
      let m := newMessage store uid receiverId text listingId w.now
      let store1 := store ++ [m]
      if w.findOk1 = false then
        (store1, [], HttpResp.error "request failed")
      else
        (store1, [], HttpResp.ok (findPopulate w.users store1 m.id))

/-- One operation of the messaging subsystem, for store-level invariants. -/
inductive SubOp where
  | send (w : SendWorld) (userId? : Option String) (receiverId text : String)
      (listingId : Option String)
  | httpSend (w : SendWorld) (user? : Option String) (receiverId text : String)
      (listingId : Option String)
  | markRead (updateOk : Bool) (userId? : Option String) (senderId : String)
  | history (selfId otherId : String) (page limit : Nat)
  | conversations (users : String → Option UserInfo) (selfId : String)
  | unread (selfId : String)

/-- The message store after running one operation (read-only operations —
the conversation aggregation and the unread count — leave it unchanged). -/
def applyOp (store : List Message) : SubOp → List Message
  | SubOp.send w u r t l => (handleSend w store u r t l).1
  | SubOp.httpSend w u r t l => (sendMessageHttp w store u r t l).1
  | SubOp.markRead ok u s => (handleMarkRead ok store u s).1
  | SubOp.history s o p l => (getMessages store s o p l).2.1
  | SubOp.conversations _ _ => store
  | SubOp.unread _ => store

/-- Demo oracle in which every external call succeeds and every room has one
live connection. -/
def allOkWorld : SendWorld :=
  { createOk := true, findOk1 := true, fetchOk := true, saveOk := true,
    findOk2 := true, occupancy := fun _ => 1, users := fun _ => none,
    now := 5, deliveryTime := 6 }

/-- Demo oracle in which every room is empty (receiver offline). -/
def offlineWorld : SendWorld :=
  { allOkWorld with occupancy := fun _ => 0 }

/-- Demo oracle in which the delivery save (`message.save()`) throws. -/
def noSaveWorld : SendWorld :=
  { allOkWorld with saveOk := false }

/-- Demo oracle in which the post-delivery re-populate throws. -/
def noFind2World : SendWorld :=
  { allOkWorld with findOk2 := false }

/-- A concrete message used by witnesses. -/
def demoMsg : Message :=
  { id := 1, senderId := "B", receiverId := "A", text := "hi", listingId := none,
    isRead := true, isDelivered := false, deliveredAt := none, createdAt := 1 }

/-- A concrete verifier: accepts exactly the token "tok" as user "u1". -/
def demoVerify : String → Except String String :=
  fun t => if t == "tok" then Except.ok "u1" else Except.error "jwt malformed"

/-- Counterpart of a conversation row, computed from the user documents the
row carries (`_id` of `sender`/`receiver`). -/
def entryParty (selfId : String) (e : ConvEntry) : String :=
  if e.senderId == selfId then e.receiverId else e.senderId

/-- A three-message conversation between "A" and "B" (ids and `createdAt`
increasing), used as concrete input for pagination and aggregation. -/
def demoConv : List Message :=
  [{ id := 1, senderId := "A", receiverId := "B", text := "one", listingId := none,
     isRead := false, isDelivered := false, deliveredAt := none, createdAt := 1 },
   { id := 2, senderId := "B", receiverId := "A", text := "two", listingId := none,
     isRead := false, isDelivered := false, deliveredAt := none, createdAt := 2 },
   { id := 3, senderId := "A", receiverId := "B", text := "three", listingId := none,
     isRead := false, isDelivered := false, deliveredAt := none, createdAt := 3 }]

/-- A user directory holding the three demo users. -/
def demoUsers : String → Option UserInfo :=
  fun uid =>
    if uid == "A" then some { name := "Alice", photo := "a.png" }
    else if uid == "B" then some { name := "Bob", photo := "b.png" }
    else if uid == "C" then some { name := "Cora", photo := "c.png" }
    else none

/-- Messages of "A" with two distinct counterparts ("B" and "C"), used to
exhibit the unspecified ordering of the conversation aggregation. -/
def demoMulti : List Message :=
  [{ id := 1, senderId := "A", receiverId := "B", text := "one", listingId := none,
     isRead := false, isDelivered := false, deliveredAt := none, createdAt := 1 },
   { id := 2, senderId := "C", receiverId := "A", text := "two", listingId := none,
     isRead := false, isDelivered := false, deliveredAt := none, createdAt := 2 },
   { id := 3, senderId := "B", receiverId := "A", text := "three", listingId := none,
     isRead := false, isDelivered := false, deliveredAt := none, createdAt := 3 }]

theorem le_maxId_of_mem {store : List Message} {m : Message} (h : m ∈ store) :
    m.id ≤ maxId store := by
  induction store with
  | nil => cases h
  | cons a rest ih =>
    rcases List.mem_cons.mp h with h | h
    · subst h
      exact Nat.le_max_left _ _
    · exact Nat.le_trans (ih h) (Nat.le_max_right _ _)

theorem markReadStore_mono (store : List Message) (sender self : String)
    {m : Message} (hm : m ∈ store) (hr : m.isRead = true) :
    ∃ m2, m2 ∈ markReadStore store sender self ∧ m2.id = m.id ∧ m2.isRead = true := by
  refine ⟨if m.senderId == sender && m.receiverId == self && !m.isRead then
            { m with isRead := true } else m, List.mem_map_of_mem _ hm, ?_, ?_⟩
  · split <;> rfl
  · split <;> simp [hr]

/-- C5 counterexample: on a connection with no bound identity the handler
emits nothing at all — in particular no error event — refuting the claim
that an error event is emitted to the sender. -/
theorem handleSend_unauthenticated_no_error_event :
    ¬ ∃ t, Event.messageError t ∈ (handleSend allOkWorld [] none "B" "hi" none).2 := by
  rintro ⟨t, ht⟩
  simp [handleSend] at ht

/-- C5 (amended): when `handleSend` runs on a connection with no bound sender
identity it silently returns — no event of any kind is emitted and the
message store is unchanged (`if (!socket.userId) return;`). -/
theorem handleSend_unauthenticated_silent (w : SendWorld) (store : List Message)
    (rid text : String) (lid : Option String) :
    handleSend w store none rid text lid = (store, []) := rfl

/-- C6: connection establishment — a missing credential is refused with
"Authentication error: No token provided"; a credential whose verification
throws is refused with "Authentication error: Invalid token"; in both failure
cases no identity is bound and no room joined (no `ConnState` is produced);
on success the decoded id is bound and the connection joins that identity's
room. -/
theorem establishConnection_spec (verify : String → Except String String) :
    (establishConnection verify none =
        Except.error "Authentication error: No token provided")
    ∧ (∀ t e, verify t = Except.error e →
        establishConnection verify (some t) =
          Except.error "Authentication error: Invalid token")
    ∧ (∀ t id, verify t = Except.ok id →
        establishConnection verify (some t) =
          Except.ok { userId := some id, rooms := [id] }) := by
  refine ⟨rfl, ?_, ?_⟩
  · intro t e h
    simp [establishConnection, authMiddleware, h]
  · intro t id h
    simp [establishConnection, authMiddleware, h]

theorem establishConnection_spec_witness :
    (establishConnection demoVerify none =
        Except.error "Authentication error: No token provided")
    ∧ (establishConnection demoVerify (some "bad") =
        Except.error "Authentication error: Invalid token")
    ∧ (establishConnection demoVerify (some "tok") =
        Except.ok { userId := some "u1", rooms := ["u1"] }) :=
  ⟨(establishConnection_spec demoVerify).1,
   (establishConnection_spec demoVerify).2.1 "bad" "jwt malformed" rfl,
   (establishConnection_spec demoVerify).2.2 "tok" "u1" rfl⟩

/-- C8: the `mark_read` bulk update is idempotent — applying it twice for the
same (sender, reader) pair equals applying it once — and no message's
`isRead` reverts from true to false. -/
theorem markRead_idempotent (store : List Message) (senderX selfId : String) :
    markReadStore (markReadStore store senderX selfId) senderX selfId =
      markReadStore store senderX selfId
    ∧ List.Forall₂ (fun m m2 => m.isRead = true → m2.isRead = true)
        store (markReadStore store senderX selfId) := by
  constructor
  · unfold markReadStore
    rw [List.map_map]
    apply List.map_congr_left
    intro m _
    by_cases h : (m.senderId == senderX && m.receiverId == selfId && !m.isRead) = true
    · simp only [Function.comp_apply, h, if_pos]
      simp
    · simp only [Function.comp_apply, h, if_neg, if_false]
      simp [h]
  · unfold markReadStore
    rw [List.forall₂_map_right_iff]
    rw [List.forall₂_same]
    intro m _ hr
    by_cases h : (m.senderId == senderX && m.receiverId == selfId && !m.isRead) = true
    · simp [h]
    · simp [h, hr]

theorem markRead_idempotent_witness :
    markReadStore (markReadStore [demoMsg] "B" "A") "B" "A" =
      markReadStore [demoMsg] "B" "A"
    ∧ List.Forall₂ (fun m m2 => m.isRead = true → m2.isRead = true)
        [demoMsg] (markReadStore [demoMsg] "B" "A") :=
  markRead_idempotent [demoMsg] "B" "A"

/-- C10: a message created through the HTTP `sendMessage` endpoint is
persisted with `isRead = false`, `isDelivered = false` and no `deliveredAt`;
the controller emits no socket event; and the result is independent of room
occupancy (delivery detection happens only on the socket path — two worlds
differing only in occupancy produce the same outcome). -/
theorem sendMessageHttp_defaults (w : SendWorld) (store : List Message)
    (uid rid text : String) (lid : Option String) (hc : w.createOk = true) :
    (∃ m, (sendMessageHttp w store (some uid) rid text lid).1 = store ++ [m]
        ∧ m.isRead = false ∧ m.isDelivered = false ∧ m.deliveredAt = none)
    ∧ (sendMessageHttp w store (some uid) rid text lid).2.1 = []
    ∧ (∀ w2 : SendWorld, w2.createOk = w.createOk → w2.findOk1 = w.findOk1 →
        w2.users = w.users → w2.now = w.now →
        sendMessageHttp w2 store (some uid) rid text lid =
          sendMessageHttp w store (some uid) rid text lid) := by
  refine ⟨⟨newMessage store uid rid text lid w.now, ?_, rfl, rfl, rfl⟩, ?_, ?_⟩
  · simp only [sendMessageHttp, hc]
    by_cases h1 : w.findOk1 = false <;> simp [h1]
  · simp only [sendMessageHttp, hc]
    by_cases h1 : w.findOk1 = false <;> simp [h1]
  · intro w2 e1 e2 e3 e4
    simp only [sendMessageHttp, newMessage, findPopulate, e1, e2, e3, e4]

theorem sendMessageHttp_defaults_witness :
    (∃ m, (sendMessageHttp allOkWorld [] (some "A") "B" "hello" none).1 = [] ++ [m]
        ∧ m.isRead = false ∧ m.isDelivered = false ∧ m.deliveredAt = none)
    ∧ (sendMessageHttp allOkWorld [] (some "A") "B" "hello" none).2.1 = []
    ∧ (∀ w2 : SendWorld, w2.createOk = allOkWorld.createOk →
        w2.findOk1 = allOkWorld.findOk1 → w2.users = allOkWorld.users →
        w2.now = allOkWorld.now →
        sendMessageHttp w2 [] (some "A") "B" "hello" none =
          sendMessageHttp allOkWorld [] (some "A") "B" "hello" none) :=
  sendMessageHttp_defaults allOkWorld [] "A" "B" "hello" none rfl

theorem mem_updateById_of_ne {store : List Message} {m m2 : Message} {id : Nat}
    (hm : m ∈ store) (hne : m.id ≠ id) : m ∈ updateById store id m2 := by
  unfold updateById
  have h := List.mem_map_of_mem (fun x => if x.id == id then m2 else x) hm
  simpa [beq_eq_false_iff_ne.mpr hne] using h

theorem handleSend_fst (w : SendWorld) (store : List Message) (uid rid text : String)
    (lid : Option String) :
    (handleSend w store (some uid) rid text lid).1 = store
    ∨ (handleSend w store (some uid) rid text lid).1 =
        store ++ [newMessage store uid rid text lid w.now]
    ∨ (handleSend w store (some uid) rid text lid).1 =
        updateById (store ++ [newMessage store uid rid text lid w.now])
          (newMessage store uid rid text lid w.now).id
          { newMessage store uid rid text lid w.now with
              isDelivered := true, deliveredAt := some w.deliveryTime } := by
  by_cases hc : w.createOk = false
  · exact Or.inl (by simp [handleSend, hc])
  · by_cases h1 : w.findOk1 = false
    · exact Or.inr (Or.inl (by simp [handleSend, hc, h1]))
    · by_cases hf : w.fetchOk = false
      · exact Or.inr (Or.inl (by simp [handleSend, hc, h1, hf]))
      · by_cases ho : 0 < w.occupancy rid
        · by_cases hs : w.saveOk = false
          · exact Or.inr (Or.inl (by simp [handleSend, hc, h1, hf, ho, hs]))
          · by_cases h2 : w.findOk2 = false
            · exact Or.inr (Or.inr (by simp [handleSend, hc, h1, hf, ho, hs, h2]))
            · exact Or.inr (Or.inr (by simp [handleSend, hc, h1, hf, ho, hs, h2]))
        · exact Or.inr (Or.inl (by simp [handleSend, hc, h1, hf, ho]))

theorem sendMessageHttp_fst (w : SendWorld) (store : List Message) (uid rid text : String)
    (lid : Option String) :
    (sendMessageHttp w store (some uid) rid text lid).1 = store
    ∨ (sendMessageHttp w store (some uid) rid text lid).1 =
        store ++ [newMessage store uid rid text lid w.now] := by
  by_cases hc : w.createOk = false
  · exact Or.inl (by simp [sendMessageHttp, hc])
  · by_cases h1 : w.findOk1 = false
    · exact Or.inr (by simp [sendMessageHttp, hc, h1])
    · exact Or.inr (by simp [sendMessageHttp, hc, h1])

theorem getMessages_store_eq (store : List Message) (selfId otherId : String)
    (page limit : Nat) :
    (getMessages store selfId otherId page limit).2.1 = markReadStore store otherId selfId :=
  rfl

/-- C9: `isRead` is monotone — every operation of the subsystem maps a
message whose `isRead` is true to a message with the same id whose `isRead`
is still true; no operation reverts the flag. -/
theorem isRead_monotone (op : SubOp) (store : List Message) (m : Message)
    (hm : m ∈ store) (hr : m.isRead = true) :
    ∃ m2, m2 ∈ applyOp store op ∧ m2.id = m.id ∧ m2.isRead = true := by
  cases op with
  | send w u r t l =>
    cases u with
    | none => exact ⟨m, hm, rfl, hr⟩
    | some uid =>
      simp only [applyOp]
      rcases handleSend_fst w store uid r t l with h | h | h
      · rw [h]; exact ⟨m, hm, rfl, hr⟩
      · rw [h]; exact ⟨m, List.mem_append_left _ hm, rfl, hr⟩
      · rw [h]
        refine ⟨m, ?_, rfl, hr⟩
        refine mem_updateById_of_ne (List.mem_append_left _ hm) ?_
        exact Nat.ne_of_lt (Nat.lt_succ_of_le (le_maxId_of_mem hm))
  | httpSend w u r t l =>
    cases u with
    | none => exact ⟨m, hm, rfl, hr⟩
    | some uid =>
      simp only [applyOp]
      rcases sendMessageHttp_fst w store uid r t l with h | h
      · rw [h]; exact ⟨m, hm, rfl, hr⟩
      · rw [h]; exact ⟨m, List.mem_append_left _ hm, rfl, hr⟩
  | markRead ok u s =>
    cases u with
    | none => exact ⟨m, hm, rfl, hr⟩
    | some uid =>
      simp only [applyOp, handleMarkRead]
      by_cases hok : ok
      · simp only [hok, if_pos]
        exact markReadStore_mono store s uid hm hr
      · simp [hok]
        exact ⟨m, hm, rfl, hr⟩
  | history s o p l =>
    simp only [applyOp, getMessages_store_eq]
    exact markReadStore_mono store o s hm hr
  | conversations users s => exact ⟨m, hm, rfl, hr⟩
  | unread s => exact ⟨m, hm, rfl, hr⟩

theorem isRead_monotone_witness :
    ∃ m2, m2 ∈ applyOp [demoMsg] (SubOp.send allOkWorld (some "A") "B" "hello" none)
      ∧ m2.id = demoMsg.id ∧ m2.isRead = true :=
  isRead_monotone (SubOp.send allOkWorld (some "A") "B" "hello" none) [demoMsg] demoMsg
    (List.mem_singleton_self demoMsg) rfl

theorem mem_updateById_of_eq {store : List Message} {n m2 : Message} {i : Nat}
    (hn : n ∈ store) (hid : n.id = i) : m2 ∈ updateById store i m2 := by
  unfold updateById
  have h := List.mem_map_of_mem (fun x => if x.id == i then m2 else x) hn
  simpa [hid] using h

/-- C1: for a `send_message` dispatch on an authenticated connection with no
storage failure — if the receiver's room is occupied the persisted message
(the unique one with the fresh id) ends with `isDelivered = true` and
`deliveredAt` set, and both a `receive_message` event to the receiver's room
and a `message_delivered` event to the sender's room are emitted; if the
room is empty the message ends with `isDelivered = false` and no
`deliveredAt`, and no `message_delivered` event is emitted. -/
theorem handleSend_delivery (w : SendWorld) (store : List Message)
    (uid rid text : String) (lid : Option String)
    (hc : w.createOk = true) (h1 : w.findOk1 = true) (hf : w.fetchOk = true)
    (hs : w.saveOk = true) (h2 : w.findOk2 = true) :
    (0 < w.occupancy rid →
      (∃ m2, m2 ∈ (handleSend w store (some uid) rid text lid).1
          ∧ m2.id = maxId store + 1)
      ∧ (∀ m2 ∈ (handleSend w store (some uid) rid text lid).1,
           m2.id = maxId store + 1 →
             m2.isDelivered = true ∧ m2.deliveredAt = some w.deliveryTime)
      ∧ (∃ p, Event.receiveMessage rid p ∈ (handleSend w store (some uid) rid text lid).2)
      ∧ (∃ mid d, Event.messageDelivered uid mid d ∈
           (handleSend w store (some uid) rid text lid).2))
    ∧ (w.occupancy rid = 0 →
      (∃ m2, m2 ∈ (handleSend w store (some uid) rid text lid).1
          ∧ m2.id = maxId store + 1)
      ∧ (∀ m2 ∈ (handleSend w store (some uid) rid text lid).1,
           m2.id = maxId store + 1 →
             m2.isDelivered = false ∧ m2.deliveredAt = none)
      ∧ (∃ p, Event.receiveMessage rid p ∈ (handleSend w store (some uid) rid text lid).2)
      ∧ (∀ room mid d, Event.messageDelivered room mid d ∉
           (handleSend w store (some uid) rid text lid).2)) := by
  constructor
  · intro ho
    have hEq : handleSend w store (some uid) rid text lid =
        (updateById (store ++ [newMessage store uid rid text lid w.now])
           (newMessage store uid rid text lid w.now).id
           { newMessage store uid rid text lid w.now with
               isDelivered := true, deliveredAt := some w.deliveryTime },
         [Event.receiveMessage rid
            (findPopulate w.users
              (updateById (store ++ [newMessage store uid rid text lid w.now])
                 (newMessage store uid rid text lid w.now).id
                 { newMessage store uid rid text lid w.now with
                     isDelivered := true, deliveredAt := some w.deliveryTime })
              (newMessage store uid rid text lid w.now).id),
          Event.messageDelivered uid (newMessage store uid rid text lid w.now).id
            (some w.deliveryTime),
          Event.messageSent
            (findPopulate w.users
              (updateById (store ++ [newMessage store uid rid text lid w.now])
                 (newMessage store uid rid text lid w.now).id
                 { newMessage store uid rid text lid w.now with
                     isDelivered := true, deliveredAt := some w.deliveryTime })
              (newMessage store uid rid text lid w.now).id)]) := by
      simp [handleSend, hc, h1, hf, hs, h2, ho]
    rw [hEq]
    refine ⟨?_, ?_, ?_, ?_⟩
    · refine ⟨{ newMessage store uid rid text lid w.now with
          isDelivered := true, deliveredAt := some w.deliveryTime }, ?_, rfl⟩
      exact mem_updateById_of_eq
        (List.mem_append_right _ (List.mem_singleton_self _)) rfl
    · intro m2 hm2 hid
      rcases List.mem_map.mp hm2 with ⟨x, hx, hfx⟩
      by_cases hxid : x.id = (newMessage store uid rid text lid w.now).id
      · rw [if_pos (beq_iff_eq.mpr hxid)] at hfx
        rw [← hfx]
        exact ⟨rfl, rfl⟩
      · rw [if_neg (by simpa using hxid)] at hfx
        rw [← hfx] at hid
        exact absurd hid hxid
    · exact ⟨_, List.mem_cons_self _ _⟩
    · exact ⟨_, _, List.mem_cons_of_mem _ (List.mem_cons_self _ _)⟩
  · intro ho
    have hEq : handleSend w store (some uid) rid text lid =
        (store ++ [newMessage store uid rid text lid w.now],
         [Event.receiveMessage rid
            (findPopulate w.users (store ++ [newMessage store uid rid text lid w.now])
              (newMessage store uid rid text lid w.now).id),
          Event.messageSent
            (findPopulate w.users (store ++ [newMessage store uid rid text lid w.now])
              (newMessage store uid rid text lid w.now).id)]) := by
      simp [handleSend, hc, h1, hf, ho]
    rw [hEq]
    refine ⟨?_, ?_, ?_, ?_⟩
    · exact ⟨newMessage store uid rid text lid w.now,
        List.mem_append_right _ (List.mem_singleton_self _), rfl⟩
    · intro m2 hm2 hid
      rcases List.mem_append.mp hm2 with hm2 | hm2
      · exact absurd hid (Nat.ne_of_lt (Nat.lt_succ_of_le (le_maxId_of_mem hm2)))
      · rw [List.mem_singleton.mp hm2]
        exact ⟨rfl, rfl⟩
    · exact ⟨_, List.mem_cons_self _ _⟩
    · intro room mid d hmem
      simp at hmem

theorem handleSend_delivery_witness :
    ((∃ m2, m2 ∈ (handleSend allOkWorld [] (some "A") "B" "hi" none).1
        ∧ m2.id = maxId [] + 1)
     ∧ (∀ m2 ∈ (handleSend allOkWorld [] (some "A") "B" "hi" none).1,
          m2.id = maxId [] + 1 →
            m2.isDelivered = true ∧ m2.deliveredAt = some allOkWorld.deliveryTime)
     ∧ (∃ p, Event.receiveMessage "B" p ∈ (handleSend allOkWorld [] (some "A") "B" "hi" none).2)
     ∧ (∃ mid d, Event.messageDelivered "A" mid d ∈
          (handleSend allOkWorld [] (some "A") "B" "hi" none).2))
    ∧ ((∃ m2, m2 ∈ (handleSend offlineWorld [] (some "A") "B" "hi" none).1
        ∧ m2.id = maxId [] + 1)
     ∧ (∀ m2 ∈ (handleSend offlineWorld [] (some "A") "B" "hi" none).1,
          m2.id = maxId [] + 1 →
            m2.isDelivered = false ∧ m2.deliveredAt = none)
     ∧ (∃ p, Event.receiveMessage "B" p ∈ (handleSend offlineWorld [] (some "A") "B" "hi" none).2)
     ∧ (∀ room mid d, Event.messageDelivered room mid d ∉
          (handleSend offlineWorld [] (some "A") "B" "hi" none).2)) :=
  ⟨(handleSend_delivery allOkWorld [] "A" "B" "hi" none rfl rfl rfl rfl rfl).1
      (by decide),
   (handleSend_delivery offlineWorld [] "A" "B" "hi" none rfl rfl rfl rfl rfl).2 rfl⟩

theorem sortDesc_perm (l : List Message) : (sortDesc l).Perm l :=
  List.perm_insertionSort _ _

theorem sortDesc_sorted (l : List Message) : List.Sorted msgBefore (sortDesc l) :=
  List.sorted_insertionSort _ _

theorem sortDesc_length (l : List Message) : (sortDesc l).length = l.length :=
  (sortDesc_perm l).length_eq

/-- C7 counterexample: when the enrichment join after a successful persist
throws (`findOk1 = false`), the outer catch fires — the handler emits
`message_error` to the sender and nothing else, with the created message
still persisted — refuting the claim that this failure is non-fatal and
falls back to emitting the persisted record. -/
theorem handleSend_enrich_fail_emits_error :
    (handleSend { allOkWorld with findOk1 := false } [] (some "A") "B" "hi" none).2 =
      [Event.messageError "Failed to send message"]
    ∧ (handleSend { allOkWorld with findOk1 := false } [] (some "A") "B" "hi" none).1 =
      [{ id := 1, senderId := "A", receiverId := "B", text := "hi", listingId := none,
         isRead := false, isDelivered := false, deliveredAt := none, createdAt := 5 }] := by
  constructor <;> rfl

/-- C7 (amended): after a successful persist, failure of the enrichment join
(the first `findById().populate()`) is fatal — the sender gets
`message_error` and no fallback emission happens (the persisted message
remains in the store); it is failure inside the presence-check/delivery
block that is non-fatal: whether `fetchSockets`, the delivery save, or the
post-delivery re-populate throws, the handler falls back to emitting the
initially loaded enriched record to receiver and sender with no
`message_error` (the save failure leaves the message undelivered in the
store; the re-populate failure leaves it delivered). -/
theorem handleSend_fallback_behaviour (w : SendWorld) (store : List Message)
    (uid rid text : String) (lid : Option String) :
    (w.createOk = true → w.findOk1 = false →
      (handleSend w store (some uid) rid text lid).2 =
        [Event.messageError "Failed to send message"]
      ∧ (handleSend w store (some uid) rid text lid).1 =
          store ++ [newMessage store uid rid text lid w.now])
    ∧ (w.createOk = true → w.findOk1 = true → w.fetchOk = false →
      (handleSend w store (some uid) rid text lid).2 =
        [Event.receiveMessage rid
           (findPopulate w.users (store ++ [newMessage store uid rid text lid w.now])
             (newMessage store uid rid text lid w.now).id),
         Event.messageSent
           (findPopulate w.users (store ++ [newMessage store uid rid text lid w.now])
             (newMessage store uid rid text lid w.now).id)]
      ∧ (handleSend w store (some uid) rid text lid).1 =
          store ++ [newMessage store uid rid text lid w.now])
    ∧ (w.createOk = true → w.findOk1 = true → w.fetchOk = true →
        0 < w.occupancy rid → w.saveOk = false →
      (handleSend w store (some uid) rid text lid).2 =
        [Event.receiveMessage rid
           (findPopulate w.users (store ++ [newMessage store uid rid text lid w.now])
             (newMessage store uid rid text lid w.now).id),
         Event.messageSent
           (findPopulate w.users (store ++ [newMessage store uid rid text lid w.now])
             (newMessage store uid rid text lid w.now).id)]
      ∧ (handleSend w store (some uid) rid text lid).1 =
          store ++ [newMessage store uid rid text lid w.now])
    ∧ (w.createOk = true → w.findOk1 = true → w.fetchOk = true →
        0 < w.occupancy rid → w.saveOk = true → w.findOk2 = false →
      (handleSend w store (some uid) rid text lid).2 =
        [Event.receiveMessage rid
           (findPopulate w.users (store ++ [newMessage store uid rid text lid w.now])
             (newMessage store uid rid text lid w.now).id),
         Event.messageSent
           (findPopulate w.users (store ++ [newMessage store uid rid text lid w.now])
             (newMessage store uid rid text lid w.now).id)]
      ∧ (handleSend w store (some uid) rid text lid).1 =
          updateById (store ++ [newMessage store uid rid text lid w.now])
            (newMessage store uid rid text lid w.now).id
            { newMessage store uid rid text lid w.now with
                isDelivered := true, deliveredAt := some w.deliveryTime }) := by
  refine ⟨?_, ?_, ?_, ?_⟩
  · intro hc h1
    constructor <;> simp [handleSend, hc, h1]
  · intro hc h1 hf
    constructor <;> simp [handleSend, hc, h1, hf]
  · intro hc h1 hf ho hs
    constructor <;> simp [handleSend, hc, h1, hf, ho, hs]
  · intro hc h1 hf ho hs h2
    constructor <;> simp [handleSend, hc, h1, hf, ho, hs, h2]

theorem handleSend_fallback_behaviour_witness :
    ((handleSend { allOkWorld with findOk1 := false } [] (some "A") "B" "hi" none).2 =
        [Event.messageError "Failed to send message"]
      ∧ (handleSend { allOkWorld with findOk1 := false } [] (some "A") "B" "hi" none).1 =
          [] ++ [newMessage [] "A" "B" "hi" none
                  ({ allOkWorld with findOk1 := false } : SendWorld).now])
    ∧ ((handleSend { allOkWorld with fetchOk := false } [] (some "A") "B" "hi" none).2 =
        [Event.receiveMessage "B"
           (findPopulate ({ allOkWorld with fetchOk := false } : SendWorld).users
             ([] ++ [newMessage [] "A" "B" "hi" none
                      ({ allOkWorld with fetchOk := false } : SendWorld).now])
             (newMessage [] "A" "B" "hi" none
               ({ allOkWorld with fetchOk := false } : SendWorld).now).id),
         Event.messageSent
           (findPopulate ({ allOkWorld with fetchOk := false } : SendWorld).users
             ([] ++ [newMessage [] "A" "B" "hi" none
                      ({ allOkWorld with fetchOk := false } : SendWorld).now])
             (newMessage [] "A" "B" "hi" none
               ({ allOkWorld with fetchOk := false } : SendWorld).now).id)]
      ∧ (handleSend { allOkWorld with fetchOk := false } [] (some "A") "B" "hi" none).1 =
          [] ++ [newMessage [] "A" "B" "hi" none
                  ({ allOkWorld with fetchOk := false } : SendWorld).now])
    ∧ ((handleSend noSaveWorld [] (some "A") "B" "hi" none).2 =
        [Event.receiveMessage "B"
           (findPopulate noSaveWorld.users
             ([] ++ [newMessage [] "A" "B" "hi" none noSaveWorld.now])
             (newMessage [] "A" "B" "hi" none noSaveWorld.now).id),
         Event.messageSent
           (findPopulate noSaveWorld.users
             ([] ++ [newMessage [] "A" "B" "hi" none noSaveWorld.now])
             (newMessage [] "A" "B" "hi" none noSaveWorld.now).id)]
      ∧ (handleSend noSaveWorld [] (some "A") "B" "hi" none).1 =
          [] ++ [newMessage [] "A" "B" "hi" none noSaveWorld.now])
    ∧ ((handleSend noFind2World [] (some "A") "B" "hi" none).2 =
        [Event.receiveMessage "B"
           (findPopulate noFind2World.users
             ([] ++ [newMessage [] "A" "B" "hi" none noFind2World.now])
             (newMessage [] "A" "B" "hi" none noFind2World.now).id),
         Event.messageSent
           (findPopulate noFind2World.users
             ([] ++ [newMessage [] "A" "B" "hi" none noFind2World.now])
             (newMessage [] "A" "B" "hi" none noFind2World.now).id)]
      ∧ (handleSend noFind2World [] (some "A") "B" "hi" none).1 =
          updateById ([] ++ [newMessage [] "A" "B" "hi" none noFind2World.now])
            (newMessage [] "A" "B" "hi" none noFind2World.now).id
            { newMessage [] "A" "B" "hi" none noFind2World.now with
                isDelivered := true, deliveredAt := some noFind2World.deliveryTime }) :=
  ⟨(handleSend_fallback_behaviour { allOkWorld with findOk1 := false } [] "A" "B" "hi" none).1
      rfl rfl,
   (handleSend_fallback_behaviour { allOkWorld with fetchOk := false } [] "A" "B" "hi" none).2.1
      rfl rfl rfl,
   (handleSend_fallback_behaviour noSaveWorld [] "A" "B" "hi" none).2.2.1
      rfl rfl rfl (by decide) rfl,
   (handleSend_fallback_behaviour noFind2World [] "A" "B" "hi" none).2.2.2
      rfl rfl rfl (by decide) rfl rfl⟩

/-- C4: after any `getMessages(self, counterpart, page, limit)` call, every
message from the counterpart to self in the resulting store is read;
position-wise, a counterpart-to-self message keeps every field except
`isRead` (set true) and any other message is untouched; and the store update
is independent of the requested page and limit (the whole conversation is
marked, not just the fetched page). -/
theorem getMessages_reads_conversation (store : List Message) (selfId otherId : String)
    (page limit : Nat) :
    (∀ m2 ∈ (getMessages store selfId otherId page limit).2.1,
        m2.senderId = otherId → m2.receiverId = selfId → m2.isRead = true)
    ∧ (∀ (i : Nat) (m : Message), store[i]? = some m →
        ∃ m2, ((getMessages store selfId otherId page limit).2.1)[i]? = some m2
          ∧ ((m.senderId = otherId ∧ m.receiverId = selfId) →
              m2.isRead = true ∧ m2.id = m.id ∧ m2.senderId = m.senderId
              ∧ m2.receiverId = m.receiverId ∧ m2.text = m.text
              ∧ m2.listingId = m.listingId ∧ m2.isDelivered = m.isDelivered
              ∧ m2.deliveredAt = m.deliveredAt ∧ m2.createdAt = m.createdAt)
          ∧ (¬(m.senderId = otherId ∧ m.receiverId = selfId) → m2 = m))
    ∧ (∀ page2 limit2, (getMessages store selfId otherId page2 limit2).2.1 =
        (getMessages store selfId otherId page limit).2.1) := by
  refine ⟨?_, ?_, ?_⟩
  · rw [getMessages_store_eq]
    intro m2 hm2 hs2 hr2
    rcases List.mem_map.mp hm2 with ⟨x, hx, hfx⟩
    by_cases hcond : (x.senderId == otherId && x.receiverId == selfId && !x.isRead) = true
    · rw [if_pos hcond] at hfx
      rw [← hfx]
    · rw [if_neg hcond] at hfx
      subst hfx
      simp only [hs2, hr2, beq_self_eq_true, true_and, Bool.true_and,
        Bool.and_eq_true, bne_iff_ne] at hcond
      simpa using hcond
  · intro i m hi
    rw [getMessages_store_eq]
    unfold markReadStore
    rw [List.getElem?_map, hi]
    by_cases hcond : (m.senderId == otherId && m.receiverId == selfId && !m.isRead) = true
    · refine ⟨{ m with isRead := true }, ?_, ?_, ?_⟩
      · show some (if (m.senderId == otherId && m.receiverId == selfId && !m.isRead) = true
            then { m with isRead := true } else m) = some { m with isRead := true }
        rw [if_pos hcond]
      · intro _
        exact ⟨rfl, rfl, rfl, rfl, rfl, rfl, rfl, rfl, rfl⟩
      · intro hnot
        exfalso
        simp only [Bool.and_eq_true, beq_iff_eq] at hcond
        exact hnot ⟨hcond.1.1, hcond.1.2⟩
    · refine ⟨m, ?_, ?_, fun _ => rfl⟩
      · show some (if (m.senderId == otherId && m.receiverId == selfId && !m.isRead) = true
            then { m with isRead := true } else m) = some m
        rw [if_neg hcond]
      rintro ⟨hsm, hrm⟩
      refine ⟨?_, rfl, rfl, rfl, rfl, rfl, rfl, rfl, rfl⟩
      simp only [hsm, hrm, beq_self_eq_true, Bool.true_and, Bool.and_eq_true] at hcond
      simpa using hcond
  · intro page2 limit2
    simp only [getMessages_store_eq]

theorem getMessages_reads_conversation_witness :
    (∀ m2 ∈ (getMessages demoConv "A" "B" 1 50).2.1,
        m2.senderId = "B" → m2.receiverId = "A" → m2.isRead = true)
    ∧ (∀ (i : Nat) (m : Message), demoConv[i]? = some m →
        ∃ m2, ((getMessages demoConv "A" "B" 1 50).2.1)[i]? = some m2
          ∧ ((m.senderId = "B" ∧ m.receiverId = "A") →
              m2.isRead = true ∧ m2.id = m.id ∧ m2.senderId = m.senderId
              ∧ m2.receiverId = m.receiverId ∧ m2.text = m.text
              ∧ m2.listingId = m.listingId ∧ m2.isDelivered = m.isDelivered
              ∧ m2.deliveredAt = m.deliveredAt ∧ m2.createdAt = m.createdAt)
          ∧ (¬(m.senderId = "B" ∧ m.receiverId = "A") → m2 = m))
    ∧ (∀ page2 limit2, (getMessages demoConv "A" "B" page2 limit2).2.1 =
        (getMessages demoConv "A" "B" 1 50).2.1) :=
  getMessages_reads_conversation demoConv "A" "B" 1 50

/-- C3 counterexample: the conversation `demoConv` has M = 3 > L = 2
messages, yet page 2 with limit 2 returns 1 message, not "the next-older L
messages" — the claim's page-2 clause fails whenever L < M < 2L. -/
theorem getMessages_page2_short :
    2 < (demoConv.filter (conversationBetween "A" "B")).length
    ∧ ((getMessages demoConv "A" "B" 2 2).1).length ≠ 2 := by
  decide

/-- C3 (amended): with M > L messages in the conversation, page 1 with limit
L is exactly the reverse of the first L entries of the descending-sorted
conversation — L messages, ascending within the page, each at least as
recent as everything deeper in the list; page 2 is the reverse of the next
block, of length min(L, M−L) (equal to L only when M ≥ 2L), also ascending
within the page. -/
theorem getMessages_pagination (store : List Message) (selfId otherId : String) (L : Nat)
    (hL : 0 < L)
    (hM : L < (store.filter (conversationBetween selfId otherId)).length) :
    ((getMessages store selfId otherId 1 L).1 =
       ((sortDesc (store.filter (conversationBetween selfId otherId))).take L).reverse)
    ∧ ((getMessages store selfId otherId 1 L).1).length = L
    ∧ List.Pairwise (fun a b => msgBefore b a) ((getMessages store selfId otherId 1 L).1)
    ∧ (∀ x ∈ (getMessages store selfId otherId 1 L).1,
         ∀ y ∈ (sortDesc (store.filter (conversationBetween selfId otherId))).drop L,
           msgBefore x y)
    ∧ ((getMessages store selfId otherId 2 L).1 =
       (((sortDesc (store.filter (conversationBetween selfId otherId))).drop L).take L).reverse)
    ∧ ((getMessages store selfId otherId 2 L).1).length =
        min L ((store.filter (conversationBetween selfId otherId)).length - L)
    ∧ List.Pairwise (fun a b => msgBefore b a) ((getMessages store selfId otherId 2 L).1) := by
  have hlen : (sortDesc (store.filter (conversationBetween selfId otherId))).length =
      (store.filter (conversationBetween selfId otherId)).length := sortDesc_length _
  have hsorted := sortDesc_sorted (store.filter (conversationBetween selfId otherId))
  have e1 : (getMessages store selfId otherId 1 L).1 =
      ((sortDesc (store.filter (conversationBetween selfId otherId))).take L).reverse := by
    simp [getMessages]
  have e2 : (getMessages store selfId otherId 2 L).1 =
      (((sortDesc (store.filter (conversationBetween selfId otherId))).drop L).take L).reverse := by
    simp [getMessages]
  refine ⟨e1, ?_, ?_, ?_, e2, ?_, ?_⟩
  · rw [e1, List.length_reverse, List.length_take, hlen]
    exact min_eq_left hM.le
  · rw [e1, List.pairwise_reverse]
    exact List.Pairwise.sublist (List.take_sublist _ _) hsorted
  · intro x hx y hy
    rw [e1, List.mem_reverse] at hx
    have hsplit : List.Pairwise msgBefore
        ((sortDesc (store.filter (conversationBetween selfId otherId))).take L ++
          (sortDesc (store.filter (conversationBetween selfId otherId))).drop L) := by
      rw [List.take_append_drop]
      exact hsorted
    rw [List.pairwise_append] at hsplit
    exact hsplit.2.2 x hx y hy
  · rw [e2, List.length_reverse, List.length_take, List.length_drop, hlen]
  · rw [e2, List.pairwise_reverse]
    exact List.Pairwise.sublist
      ((List.take_sublist _ _).trans (List.drop_sublist _ _)) hsorted

theorem getMessages_pagination_witness :
    ((getMessages demoConv "A" "B" 1 2).1 =
       ((sortDesc (demoConv.filter (conversationBetween "A" "B"))).take 2).reverse)
    ∧ ((getMessages demoConv "A" "B" 1 2).1).length = 2
    ∧ List.Pairwise (fun a b => msgBefore b a) ((getMessages demoConv "A" "B" 1 2).1)
    ∧ (∀ x ∈ (getMessages demoConv "A" "B" 1 2).1,
         ∀ y ∈ (sortDesc (demoConv.filter (conversationBetween "A" "B"))).drop 2,
           msgBefore x y)
    ∧ ((getMessages demoConv "A" "B" 2 2).1 =
       (((sortDesc (demoConv.filter (conversationBetween "A" "B"))).drop 2).take 2).reverse)
    ∧ ((getMessages demoConv "A" "B" 2 2).1).length =
        min 2 ((demoConv.filter (conversationBetween "A" "B")).length - 2)
    ∧ List.Pairwise (fun a b => msgBefore b a) ((getMessages demoConv "A" "B" 2 2).1) :=
  getMessages_pagination demoConv "A" "B" 2 (by decide) (by decide)

theorem pickFirstPerParty_nil (s : String) (n : Nat) : pickFirstPerParty s n [] = [] := by
  cases n <;> rfl

theorem pickFirstPerParty_cons (s : String) (fuel : Nat) (m : Message) (rest : List Message) :
    pickFirstPerParty s (fuel + 1) (m :: rest) =
      m :: pickFirstPerParty s fuel
        (rest.filter (fun x => otherParty s x != otherParty s m)) := rfl

theorem pickFirstPerParty_sublist_aux (s : String) :
    ∀ (n : Nat) (l : List Message), l.length ≤ n → (pickFirstPerParty s n l).Sublist l := by
  intro n
  induction n with
  | zero =>
    intro l h
    have he : l = [] := List.eq_nil_of_length_eq_zero (Nat.le_zero.mp h)
    subst he
    rw [pickFirstPerParty_nil]
  | succ n ih =>
    intro l h
    cases l with
    | nil => rw [pickFirstPerParty_nil]
    | cons m rest =>
      rw [pickFirstPerParty_cons]
      refine List.Sublist.cons₂ m ?_
      exact (ih _ (le_trans (List.length_filter_le _ _)
        (Nat.le_of_succ_le_succ h))).trans (List.filter_sublist _)

theorem pickFirstPerParty_sublist (s : String) (l : List Message) :
    (pickFirstPerParty s l.length l).Sublist l :=
  pickFirstPerParty_sublist_aux s l.length l (Nat.le_refl _)

theorem pickFirstPerParty_nodup_aux (s : String) :
    ∀ (n : Nat) (l : List Message), l.length ≤ n →
      ((pickFirstPerParty s n l).map (otherParty s)).Nodup := by
  intro n
  induction n with
  | zero =>
    intro l h
    have he : l = [] := List.eq_nil_of_length_eq_zero (Nat.le_zero.mp h)
    subst he
    rw [pickFirstPerParty_nil]
    exact List.nodup_nil
  | succ n ih =>
    intro l h
    cases l with
    | nil =>
      rw [pickFirstPerParty_nil]
      exact List.nodup_nil
    | cons m rest =>
      rw [pickFirstPerParty_cons, List.map_cons, List.nodup_cons]
      constructor
      · intro hmem
        rcases List.mem_map.mp hmem with ⟨x, hx, hpx⟩
        have hx2 : x ∈ rest.filter (fun x => otherParty s x != otherParty s m) :=
          (pickFirstPerParty_sublist_aux s n _ (le_trans (List.length_filter_le _ _)
            (Nat.le_of_succ_le_succ h))).subset hx
        have hne := (List.mem_filter.mp hx2).2
        rw [bne_iff_ne] at hne
        exact hne hpx
      · exact ih _ (le_trans (List.length_filter_le _ _) (Nat.le_of_succ_le_succ h))

theorem pickFirstPerParty_nodup (s : String) (l : List Message) :
    ((pickFirstPerParty s l.length l).map (otherParty s)).Nodup :=
  pickFirstPerParty_nodup_aux s l.length l (Nat.le_refl _)

theorem pickFirstPerParty_cover_aux (s : String) :
    ∀ (n : Nat) (l : List Message), l.length ≤ n →
      ∀ m ∈ l, ∃ e ∈ pickFirstPerParty s n l, otherParty s e = otherParty s m := by
  intro n
  induction n with
  | zero =>
    intro l h
    have he : l = [] := List.eq_nil_of_length_eq_zero (Nat.le_zero.mp h)
    subst he
    intro m hm
    cases hm
  | succ n ih =>
    intro l h
    cases l with
    | nil =>
      intro m hm
      cases hm
    | cons a rest =>
      intro m hm
      rw [pickFirstPerParty_cons]
      rcases List.mem_cons.mp hm with he | hm2
      · subst he
        exact ⟨_, List.mem_cons_self _ _, rfl⟩
      · by_cases hp : otherParty s m = otherParty s a
        · exact ⟨a, List.mem_cons_self _ _, hp.symm⟩
        · have hm3 : m ∈ rest.filter (fun x => otherParty s x != otherParty s a) :=
            List.mem_filter.mpr ⟨hm2, bne_iff_ne.mpr hp⟩
          rcases ih _ (le_trans (List.length_filter_le _ _)
              (Nat.le_of_succ_le_succ h)) m hm3 with ⟨e, he, hpe⟩
          exact ⟨e, List.mem_cons_of_mem _ he, hpe⟩

theorem pickFirstPerParty_cover (s : String) (l : List Message) :
    ∀ m ∈ l, ∃ e ∈ pickFirstPerParty s l.length l, otherParty s e = otherParty s m :=
  pickFirstPerParty_cover_aux s l.length l (Nat.le_refl _)

theorem pickFirstPerParty_max_aux (s : String) :
    ∀ (n : Nat) (l : List Message), l.length ≤ n → List.Pairwise msgBefore l →
      ∀ e ∈ pickFirstPerParty s n l, ∀ m ∈ l,
        otherParty s m = otherParty s e → m.createdAt ≤ e.createdAt := by
  intro n
  induction n with
  | zero =>
    intro l h _
    have he : l = [] := List.eq_nil_of_length_eq_zero (Nat.le_zero.mp h)
    subst he
    intro e he2
    rw [pickFirstPerParty_nil] at he2
    cases he2
  | succ n ih =>
    intro l h hsort
    cases l with
    | nil =>
      intro e he2
      rw [pickFirstPerParty_nil] at he2
      cases he2
    | cons a rest =>
      intro e he2 m hm hp
      rw [pickFirstPerParty_cons] at he2
      rcases List.mem_cons.mp he2 with hea | he3
      · subst hea
        rcases List.mem_cons.mp hm with hma | hm2
        · subst hma
          exact Nat.le_refl _
        · have hba := (List.pairwise_cons.mp hsort).1 m hm2
          rcases hba with hlt | ⟨heq, _⟩
          · exact Nat.le_of_lt hlt
          · exact Nat.le_of_eq heq
      · have hef : e ∈ rest.filter (fun x => otherParty s x != otherParty s a) :=
          (pickFirstPerParty_sublist_aux s n _ (le_trans (List.length_filter_le _ _)
            (Nat.le_of_succ_le_succ h))).subset he3
        have hne : otherParty s e ≠ otherParty s a :=
          bne_iff_ne.mp (List.mem_filter.mp hef).2
        rcases List.mem_cons.mp hm with hma | hm2
        · subst hma
          exact absurd hp.symm hne
        · by_cases hpm : otherParty s m = otherParty s a
          · exact absurd (hp.symm.trans hpm) hne
          · have hm3 : m ∈ rest.filter (fun x => otherParty s x != otherParty s a) :=
              List.mem_filter.mpr ⟨hm2, bne_iff_ne.mpr hpm⟩
            exact ih _ (le_trans (List.length_filter_le _ _) (Nat.le_of_succ_le_succ h))
              (List.Pairwise.sublist (List.filter_sublist _)
                (List.pairwise_cons.mp hsort).2)
              e he3 m hm3 hp

theorem pickFirstPerParty_max (s : String) (l : List Message)
    (hsort : List.Pairwise msgBefore l) :
    ∀ e ∈ pickFirstPerParty s l.length l, ∀ m ∈ l,
      otherParty s m = otherParty s e → m.createdAt ≤ e.createdAt :=
  pickFirstPerParty_max_aux s l.length l (Nat.le_refl _) hsort

theorem filterMap_toConvEntry_eq (users : String → Option UserInfo) :
    ∀ (l : List Message),
      (∀ m ∈ l, (users m.senderId).isSome = true ∧ (users m.receiverId).isSome = true) →
      l.filterMap (toConvEntry users) = l.map (toConvEntryD users) := by
  intro l
  induction l with
  | nil =>
    intro _
    rfl
  | cons a rest ih =>
    intro h
    obtain ⟨hs, hr⟩ := h a (List.mem_cons_self a rest)
    rcases Option.isSome_iff_exists.mp hs with ⟨us, hus⟩
    rcases Option.isSome_iff_exists.mp hr with ⟨ur, hur⟩
    have he : toConvEntry users a = some (toConvEntryD users a) := by
      simp [toConvEntry, toConvEntryD, hus, hur]
    simp only [List.filterMap_cons, he, List.map_cons]
    rw [ih (fun m hm => h m (List.mem_cons_of_mem _ hm))]

/-- C2 counterexample: MongoDB does not specify `$group` output order and
the pipeline has no `$sort` after `$group`, so reversing the groups is a
behaviour the code permits — and under it, for an identity with two
counterparts, the returned sequence is not ordered descending by
`createdAt`, refuting the claim's ordering clause. -/
theorem getConversations_order_not_guaranteed :
    ((List.reverse (pickFirstPerParty "A"
        (sortDesc (demoMulti.filter (involves "A"))).length
        (sortDesc (demoMulti.filter (involves "A"))))).Perm
      (pickFirstPerParty "A"
        (sortDesc (demoMulti.filter (involves "A"))).length
        (sortDesc (demoMulti.filter (involves "A")))))
    ∧ ¬ List.Pairwise (fun a b : ConvEntry =>
          b.createdAt < a.createdAt ∨ (b.createdAt = a.createdAt ∧ b.id ≤ a.id))
        (getConversations demoUsers List.reverse demoMulti "A") :=
  ⟨List.reverse_perm _, by decide⟩

/-- C2 (amended): for an identity whose relevant messages all reference
existing users, and for every `$group` output order the database may choose
(any permutation of the group representatives), `getConversations` returns
exactly one entry per distinct counterpart — N entries with pairwise
distinct counterpart ids, every counterpart represented; each entry is a
copy of a message of its pairing whose `createdAt` is maximal among that
pairing's messages; and an identity with zero messages gets the empty
sequence.  The order of the entries is unspecified. -/
theorem getConversations_correct (users : String → Option UserInfo)
    (groupOut : List Message → List Message) (store : List Message) (selfId : String)
    (husers : ∀ m ∈ store.filter (involves selfId),
        (users m.senderId).isSome = true ∧ (users m.receiverId).isSome = true)
    (hg : (groupOut (pickFirstPerParty selfId
            (sortDesc (store.filter (involves selfId))).length
            (sortDesc (store.filter (involves selfId))))).Perm
          (pickFirstPerParty selfId
            (sortDesc (store.filter (involves selfId))).length
            (sortDesc (store.filter (involves selfId))))) :
    ((getConversations users groupOut store selfId).length =
       ((store.filter (involves selfId)).map (otherParty selfId)).dedup.length)
    ∧ ((getConversations users groupOut store selfId).map (entryParty selfId)).Nodup
    ∧ (∀ e ∈ getConversations users groupOut store selfId,
         ∃ m, m ∈ store.filter (involves selfId)
           ∧ otherParty selfId m = entryParty selfId e
           ∧ m.createdAt = e.createdAt ∧ m.id = e.id
           ∧ ∀ m2 ∈ store.filter (involves selfId),
               otherParty selfId m2 = entryParty selfId e → m2.createdAt ≤ e.createdAt)
    ∧ (∀ m ∈ store.filter (involves selfId),
         ∃ e ∈ getConversations users groupOut store selfId,
           entryParty selfId e = otherParty selfId m)
    ∧ (store.filter (involves selfId) = [] →
        getConversations users groupOut store selfId = []) := by
  have hperm := sortDesc_perm (store.filter (involves selfId))
  have hsorted := sortDesc_sorted (store.filter (involves selfId))
  have hsub : (pickFirstPerParty selfId
      (sortDesc (store.filter (involves selfId))).length
      (sortDesc (store.filter (involves selfId)))).Sublist
      (sortDesc (store.filter (involves selfId))) := pickFirstPerParty_sublist selfId _
  have hmemrel : ∀ m ∈ pickFirstPerParty selfId
      (sortDesc (store.filter (involves selfId))).length
      (sortDesc (store.filter (involves selfId))),
      m ∈ store.filter (involves selfId) :=
    fun m hm => hperm.subset (hsub.subset hm)
  have hout : getConversations users groupOut store selfId =
      (groupOut (pickFirstPerParty selfId
          (sortDesc (store.filter (involves selfId))).length
          (sortDesc (store.filter (involves selfId))))).map (toConvEntryD users) := by
    show (groupOut (pickFirstPerParty selfId
        (sortDesc (store.filter (involves selfId))).length
        (sortDesc (store.filter (involves selfId))))).filterMap (toConvEntry users) = _
    exact filterMap_toConvEntry_eq users _
      (fun m hm => husers m (hmemrel m (hg.subset hm)))
  have hpartymap : (getConversations users groupOut store selfId).map (entryParty selfId) =
      (groupOut (pickFirstPerParty selfId
          (sortDesc (store.filter (involves selfId))).length
          (sortDesc (store.filter (involves selfId))))).map (otherParty selfId) := by
    rw [hout, List.map_map]
    exact List.map_congr_left (fun m _ => rfl)
  have hgparty : ((groupOut (pickFirstPerParty selfId
        (sortDesc (store.filter (involves selfId))).length
        (sortDesc (store.filter (involves selfId))))).map (otherParty selfId)).Perm
      ((pickFirstPerParty selfId
        (sortDesc (store.filter (involves selfId))).length
        (sortDesc (store.filter (involves selfId)))).map (otherParty selfId)) :=
    hg.map _
  have hnodupG : ((groupOut (pickFirstPerParty selfId
      (sortDesc (store.filter (involves selfId))).length
      (sortDesc (store.filter (involves selfId))))).map (otherParty selfId)).Nodup :=
    hgparty.nodup_iff.mpr
      (pickFirstPerParty_nodup selfId (sortDesc (store.filter (involves selfId))))
  have hmemiff : ∀ a,
      a ∈ (groupOut (pickFirstPerParty selfId
            (sortDesc (store.filter (involves selfId))).length
            (sortDesc (store.filter (involves selfId))))).map (otherParty selfId)
      ↔ a ∈ ((store.filter (involves selfId)).map (otherParty selfId)).dedup := by
    intro a
    rw [hgparty.mem_iff, List.mem_dedup]
    constructor
    · intro hmem
      rcases List.mem_map.mp hmem with ⟨x, hx, hpx⟩
      exact List.mem_map.mpr ⟨x, hmemrel x hx, hpx⟩
    · intro hmem
      rcases List.mem_map.mp hmem with ⟨x, hx, hpx⟩
      have hx2 : x ∈ sortDesc (store.filter (involves selfId)) := hperm.mem_iff.mpr hx
      rcases pickFirstPerParty_cover selfId _ x hx2 with ⟨e, he, hpe⟩
      exact List.mem_map.mpr ⟨e, he, hpe.trans hpx⟩
  have hpermmap : ((groupOut (pickFirstPerParty selfId
        (sortDesc (store.filter (involves selfId))).length
        (sortDesc (store.filter (involves selfId))))).map (otherParty selfId)).Perm
      ((store.filter (involves selfId)).map (otherParty selfId)).dedup :=
    (List.perm_ext_iff_of_nodup hnodupG (List.nodup_dedup _)).mpr hmemiff
  refine ⟨?_, ?_, ?_, ?_, ?_⟩
  · rw [hout, List.length_map]
    have h1 : (groupOut (pickFirstPerParty selfId
        (sortDesc (store.filter (involves selfId))).length
        (sortDesc (store.filter (involves selfId))))).length =
        ((groupOut (pickFirstPerParty selfId
          (sortDesc (store.filter (involves selfId))).length
          (sortDesc (store.filter (involves selfId))))).map
            (otherParty selfId)).length := (List.length_map _ _).symm
    rw [h1, hpermmap.length_eq]
  · rw [hpartymap]
    exact hnodupG
  · intro e he
    rw [hout] at he
    rcases List.mem_map.mp he with ⟨x, hx, hex⟩
    subst hex
    have hx2 : x ∈ pickFirstPerParty selfId
        (sortDesc (store.filter (involves selfId))).length
        (sortDesc (store.filter (involves selfId))) := hg.subset hx
    refine ⟨x, hmemrel x hx2, rfl, rfl, rfl, ?_⟩
    intro m2 hm2 hp2
    have hm2s : m2 ∈ sortDesc (store.filter (involves selfId)) := hperm.mem_iff.mpr hm2
    exact pickFirstPerParty_max selfId _ hsorted x hx2 m2 hm2s hp2
  · intro m hm
    have hms : m ∈ sortDesc (store.filter (involves selfId)) := hperm.mem_iff.mpr hm
    rcases pickFirstPerParty_cover selfId _ m hms with ⟨x, hx, hpx⟩
    refine ⟨toConvEntryD users x, ?_, hpx⟩
    rw [hout]
    exact List.mem_map_of_mem _ (hg.mem_iff.mpr hx)
  · intro hrel
    have h0 : pickFirstPerParty selfId
        (sortDesc (store.filter (involves selfId))).length
        (sortDesc (store.filter (involves selfId))) = [] := by
      rw [hrel]
      exact pickFirstPerParty_nil selfId _
    rw [h0] at hg
    rw [hout, h0, List.Perm.eq_nil hg]
    rfl

theorem getConversations_correct_witness :
    ((getConversations demoUsers (fun l => l) demoConv "A").length =
       ((demoConv.filter (involves "A")).map (otherParty "A")).dedup.length)
    ∧ ((getConversations demoUsers (fun l => l) demoConv "A").map (entryParty "A")).Nodup
    ∧ (∀ e ∈ getConversations demoUsers (fun l => l) demoConv "A",
         ∃ m, m ∈ demoConv.filter (involves "A")
           ∧ otherParty "A" m = entryParty "A" e
           ∧ m.createdAt = e.createdAt ∧ m.id = e.id
           ∧ ∀ m2 ∈ demoConv.filter (involves "A"),
               otherParty "A" m2 = entryParty "A" e → m2.createdAt ≤ e.createdAt)
    ∧ (∀ m ∈ demoConv.filter (involves "A"),
         ∃ e ∈ getConversations demoUsers (fun l => l) demoConv "A",
           entryParty "A" e = otherParty "A" m)
    ∧ (demoConv.filter (involves "A") = [] →
        getConversations demoUsers (fun l => l) demoConv "A" = []) :=
  getConversations_correct demoUsers (fun l => l) demoConv "A" (by decide)
    (List.Perm.refl _)
